import Mathlib

/-!
Verification development for the `rss_reader` package
(`rss_reader_dates.py`, `rss_reader_text.py`, `rss_reader_xml.py`,
`rss_reader_sql.py`, `app.py`).

The Python sources are shallowly embedded as executable Lean functions:
strings are `String` / `List Char`, `datetime.datetime` values are a
`DateTime` record of numeric fields, the SQLite table is a list of rows
plus an autoincrement counter, and fallible operations return `Option`
or a small result inductive.  Python's `datetime.strptime` (standard
library, external to the repository) is embedded for exactly the format
directives the repository uses (`%d %b %y %Y %m %H %M %S`, literals and
whitespace), following CPython's `_strptime` matching rules: fixed-width
`%Y`/`%y`, one-or-two-digit numeric fields, case-insensitive literals,
a whitespace run in the format matching one or more whitespace
characters, and a final whole-string-consumed check.
-/

/-- Calendar timestamp, the embedding of `datetime.datetime` (the fields
the repository actually uses: no microseconds, no timezone). -/
structure DateTime where
  year : Nat
  month : Nat
  day : Nat
  hour : Nat
  minute : Nat
  second : Nat
deriving DecidableEq

/-- ASCII decimal digit test (the `\d` of CPython `_strptime` regexes,
restricted to ASCII as those regexes are). -/
def isDigitC (c : Char) : Bool := 48 ≤ c.toNat && c.toNat ≤ 57

/-- Numeric value of an ASCII digit. -/
def digitVal (c : Char) : Nat := c.toNat - 48

/-- ASCII lowercasing, used because CPython compiles strptime regexes
with IGNORECASE. -/
def lowerC (c : Char) : Char :=
  if 65 ≤ c.toNat && c.toNat ≤ 90 then Char.ofNat (c.toNat + 32) else c

/-- Python whitespace (ASCII part): the characters matched by `\s` and
stripped by `str.strip` that can occur in this pipeline. -/
def isPyWs (c : Char) : Bool :=
  c = ' ' || c = Char.ofNat 9 || c = Char.ofNat 10 || c = Char.ofNat 13 ||
  c = Char.ofNat 11 || c = Char.ofNat 12

/-- Bounded-range test, `lo ≤ v ≤ hi`. -/
def betw (lo v hi : Nat) : Bool := decide (lo ≤ v ∧ v ≤ hi)

/-- Python index clamping for slices: a negative index counts from the
end, and both ends are clamped into `[0, len]`. -/
def pyIndex (len : Nat) (i : Int) : Nat :=
  if i < 0 then (max 0 (Int.ofNat len + i)).toNat else min i.toNat len

/-- Python slice `s[a:b]` with full clamping semantics. -/
def pySlice (s : List Char) (a b : Int) : List Char :=
  (s.take (pyIndex s.length b)).drop (pyIndex s.length a)

/-- Lowercased three-letter month abbreviations recognized by `%b` in
the C locale. -/
def monthAbbrs : List String :=
  ["jan", "feb", "mar", "apr", "may", "jun",
   "jul", "aug", "sep", "oct", "nov", "dec"]

/-- Month number from a three-character abbreviation, case-insensitive. -/
def monthFromAbbr (a b c : Char) : Option Nat :=
  match monthAbbrs.findIdx? (fun s => s = String.mk [lowerC a, lowerC b, lowerC c]) with
  | some i => some (i + 1)
  | none => none

/-- Accumulator of fields recognized so far; initial values are the
CPython strptime defaults (year 1900, month 1, day 1, midnight). -/
structure ParseAcc where
  year : Nat := 1900
  month : Nat := 1
  day : Nat := 1
  hour : Nat := 0
  minute : Nat := 0
  second : Nat := 0
deriving DecidableEq

/-- Matcher for the strptime format directives used by the repository.
First argument is the remaining format, second the remaining input.
Mirrors the CPython `_strptime` regexes: `%d` is `3[0-1]|[1-2]\d|0[1-9]|[1-9]| [1-9]`,
`%m` is `1[0-2]|0[1-9]|[1-9]`, `%H` is `2[0-3]|[0-1]\d\|\d`, `%M` is
`[0-5]\d|\d`, `%S` is `6[0-1]|[0-5]\d|\d`, `%Y` is exactly four digits,
`%y` exactly two (00-68 mapping to 20xx, 69-99 to 19xx), `%b` a month
abbreviation, a whitespace character in the format one-or-more
whitespace characters in the input, and any other character itself,
case-insensitively.  The empty-format case enforces CPython's
"unconverted data remains" check. -/
def matchFormat : List Char → List Char → ParseAcc → Option ParseAcc
  | [], input, acc => if input.isEmpty then some acc else none
  | '%' :: 'd' :: fmt, input, acc =>
    (match input with
     | c1 :: c2 :: tl =>
       if isDigitC c1 && isDigitC c2 && betw 1 (10 * digitVal c1 + digitVal c2) 31 then
         matchFormat fmt tl { acc with day := 10 * digitVal c1 + digitVal c2 }
       else if isDigitC c1 && betw 1 (digitVal c1) 9 then
         matchFormat fmt (c2 :: tl) { acc with day := digitVal c1 }
       else if c1 = ' ' && isDigitC c2 && betw 1 (digitVal c2) 9 then
         matchFormat fmt tl { acc with day := digitVal c2 }
       else none
     | [c1] =>
       if isDigitC c1 && betw 1 (digitVal c1) 9 then
         matchFormat fmt [] { acc with day := digitVal c1 }
       else none
     | [] => none)
  | '%' :: 'm' :: fmt, input, acc =>
    (match input with
     | c1 :: c2 :: tl =>
       if isDigitC c1 && isDigitC c2 && betw 1 (10 * digitVal c1 + digitVal c2) 12 then
         matchFormat fmt tl { acc with month := 10 * digitVal c1 + digitVal c2 }
       else if isDigitC c1 && betw 1 (digitVal c1) 9 then
         matchFormat fmt (c2 :: tl) { acc with month := digitVal c1 }
       else none
     | [c1] =>
       if isDigitC c1 && betw 1 (digitVal c1) 9 then
         matchFormat fmt [] { acc with month := digitVal c1 }
       else none
     | [] => none)
  | '%' :: 'b' :: fmt, input, acc =>
    (match input with
     | c1 :: c2 :: c3 :: tl =>
       (match monthFromAbbr c1 c2 c3 with
        | some m => matchFormat fmt tl { acc with month := m }
        | none => none)
     | _ => none)
  | '%' :: 'Y' :: fmt, input, acc =>
    (match input with
     | c1 :: c2 :: c3 :: c4 :: tl =>
       if isDigitC c1 && isDigitC c2 && isDigitC c3 && isDigitC c4 then
         matchFormat fmt tl
           { acc with year :=
               1000 * digitVal c1 + 100 * digitVal c2 + 10 * digitVal c3 + digitVal c4 }
       else none
     | _ => none)
  | '%' :: 'y' :: fmt, input, acc =>
    (match input with
     | c1 :: c2 :: tl =>
       if isDigitC c1 && isDigitC c2 then
         matchFormat fmt tl
           { acc with year :=
               if 10 * digitVal c1 + digitVal c2 ≤ 68 then
                 2000 + 10 * digitVal c1 + digitVal c2
               else 1900 + 10 * digitVal c1 + digitVal c2 }
       else none
     | _ => none)
  | '%' :: 'H' :: fmt, input, acc =>
    (match input with
     | c1 :: c2 :: tl =>
       if isDigitC c1 && isDigitC c2 && betw 0 (10 * digitVal c1 + digitVal c2) 23 then
         matchFormat fmt tl { acc with hour := 10 * digitVal c1 + digitVal c2 }
       else if isDigitC c1 then
         matchFormat fmt (c2 :: tl) { acc with hour := digitVal c1 }
       else none
     | [c1] =>
       if isDigitC c1 then matchFormat fmt [] { acc with hour := digitVal c1 } else none
     | [] => none)
  | '%' :: 'M' :: fmt, input, acc =>
    (match input with
     | c1 :: c2 :: tl =>
       if isDigitC c1 && isDigitC c2 && betw 0 (10 * digitVal c1 + digitVal c2) 59 then
         matchFormat fmt tl { acc with minute := 10 * digitVal c1 + digitVal c2 }
       else if isDigitC c1 then
         matchFormat fmt (c2 :: tl) { acc with minute := digitVal c1 }
       else none
     | [c1] =>
       if isDigitC c1 then matchFormat fmt [] { acc with minute := digitVal c1 } else none
     | [] => none)
  | '%' :: 'S' :: fmt, input, acc =>
    (match input with
     | c1 :: c2 :: tl =>
       if isDigitC c1 && isDigitC c2 && betw 0 (10 * digitVal c1 + digitVal c2) 61 then
         matchFormat fmt tl { acc with second := 10 * digitVal c1 + digitVal c2 }
       else if isDigitC c1 then
         matchFormat fmt (c2 :: tl) { acc with second := digitVal c1 }
       else none
     | [c1] =>
       if isDigitC c1 then matchFormat fmt [] { acc with second := digitVal c1 } else none
     | [] => none)
  | c :: fmt, input, acc =>
    if isPyWs c then
      (match input with
       | d :: tl => if isPyWs d then matchFormat fmt (tl.dropWhile isPyWs) acc else none
       | [] => none)
    else
      (match input with
       | d :: tl => if lowerC d = lowerC c then matchFormat fmt tl acc else none
       | [] => none)

/-- Gregorian leap year. -/
def isLeap (y : Nat) : Bool := (y % 4 = 0 && y % 100 ≠ 0) || y % 400 = 0

/-- Days in a month. -/
def daysInMonth (y m : Nat) : Nat :=
  if m = 2 then (if isLeap y then 29 else 28)
  else if m = 4 || m = 6 || m = 9 || m = 11 then 30
  else 31

/-- The validation performed by the `datetime` constructor that
`datetime.strptime` ends with: year in 1..9999, month 1..12, a real day
of that month, and seconds at most 59. -/
def validAcc (a : ParseAcc) : Bool :=
  betw 1 a.year 9999 && betw 1 a.month 12 &&
  betw 1 a.day (daysInMonth a.year a.month) && a.second ≤ 59

/-- The `datetime.strptime(input, fmt)` for the directives above; `none`
is the `ValueError` path (match failure, leftover input, or an invalid
calendar date). -/
def strptime (input fmt : List Char) : Option DateTime :=
  match matchFormat fmt input {} with
  | some a =>
    if validAcc a then some ⟨a.year, a.month, a.day, a.hour, a.minute, a.second⟩ else none
  | none => none

/-- The sentinel `datetime(1900, 1, 1)` of `rss_reader_dates.parse_date`. -/
def sentinelDate : DateTime := ⟨1900, 1, 1, 0, 0, 0⟩

/-- A single-quote character, kept out of string literals. -/
def sglQuote : String := String.mk [Char.ofNat 39]

/-- The warning message recorded by `parse_date` when every format
fails (`logging.warning` call in `rss_reader_dates.py`). -/
def dateWarning (title : String) : String :=
  "No date provided or wrong date format in news " ++ sglQuote ++ title ++ sglQuote ++
  ". Date set to " ++ sglQuote ++ "19000101" ++ sglQuote ++ "."

/-- The five dated extraction attempts of `parse_date`, in source
order: `date[5:25]` with `%d %b %Y %H:%M:%S`, `date[5:23]` with
`%d %b %y %H:%M:%S`, `date[:19]` with `%Y-%m-%dT%H:%M:%S`, the whole
string with `%Y-%m-%d %H:%M:%S`, and `date[-24:-4]` with
`%d %b %Y %H:%M:%S`. -/
def dateRules (date : List Char) : List (Option DateTime) :=
  [ strptime (pySlice date 5 25) ("%d %b %Y %H:%M:%S").toList
  , strptime (pySlice date 5 23) ("%d %b %y %H:%M:%S").toList
  , strptime (pySlice date 0 19) ("%Y-%m-%dT%H:%M:%S").toList
  , strptime date ("%Y-%m-%d %H:%M:%S").toList
  , strptime (pySlice date (-24) (-4)) ("%d %b %Y %H:%M:%S").toList ]

/-- First non-`none` element of a list of attempts (the `for`/`break`
loop of `parse_date`). -/
def firstSome {α : Type} : List (Option α) → Option α
  | [] => none
  | some v :: _ => some v
  | none :: rest => firstSome rest

/-- The `rss_reader_dates.parse_date`: the first rule that parses wins; if
none parses the result is the sentinel and one warning naming the
item title is recorded.  The second component is the list of warnings
emitted by the call. -/
def parse_date (date title : String) : DateTime × List String :=
  match firstSome (dateRules date.toList) with
  | some d => (d, [])
  | none => (sentinelDate, [dateWarning title])

/-- Full month names used by `strftime("%B ...")`. -/
def monthNames : List String :=
  ["January", "February", "March", "April", "May", "June",
   "July", "August", "September", "October", "November", "December"]

/-- Two-digit zero padding. -/
def pad2 (n : Nat) : String := if n < 10 then "0" ++ Nat.repr n else Nat.repr n

/-- Four-digit zero padding. -/
def pad4 (n : Nat) : String :=
  if n < 10 then "000" ++ Nat.repr n
  else if n < 100 then "00" ++ Nat.repr n
  else if n < 1000 then "0" ++ Nat.repr n
  else Nat.repr n

/-- The `rss_reader_dates.reformat_date`: parse `%Y%m%d` and render
`%B %d, %Y`; `none` is the uncaught `ValueError` on a malformed date. -/
def reformat_date (date : String) : Option String :=
  match strptime date.toList ("%Y%m%d").toList with
  | some d =>
    some ((monthNames.get? (d.month - 1)).getD "" ++ " " ++ pad2 d.day ++ ", " ++
      Nat.repr d.year)
  | none => none

/-- Scan for the closing angle bracket of a non-greedy `<.+?>` match:
the first close bracket at the given running index, failing on a
newline (the regex dot does not match newlines). -/
def findGt : List Char → Nat → Option Nat
  | [], _ => none
  | c :: tl, idx =>
    if c = '>' then some idx
    else if c = Char.ofNat 10 then none
    else findGt tl (idx + 1)

/-- Given the characters following an opening bracket, the index of the
closing bracket of the non-greedy match `<.+?>`: at least one
non-newline content character, then the first close bracket. -/
def scanTag (l : List Char) : Option Nat :=
  match l with
  | [] => none
  | c0 :: rest2 => if c0 = Char.ofNat 10 then none else findGt rest2 1

/-- Fuel-indexed worker for `stripTags`; the fuel only discharges
termination and is always at least the input length at the call site,
so the zero case is never reached. -/
def stripTagsF : Nat → List Char → List Char
  | 0, _ => []
  | _ + 1, [] => []
  | f + 1, c :: rest =>
    if c = '<' then
      match scanTag rest with
      | some k => stripTagsF f (rest.drop (k + 1))
      | none => c :: stripTagsF f rest
    else c :: stripTagsF f rest

/-- The `re.sub(r"<.+?>", "", text)`: delete every non-greedy tag match,
scanning left to right and resuming after each deleted match. -/
def stripTags (l : List Char) : List Char := stripTagsF l.length l

/-- The `str.strip()` restricted to the ASCII whitespace characters. -/
def pyStrip (l : List Char) : List Char :=
  ((l.dropWhile isPyWs).reverse.dropWhile isPyWs).reverse

/-- Fuel-indexed worker for `collapseWs`. -/
def collapseWsF : Nat → List Char → List Char
  | 0, _ => []
  | _ + 1, [] => []
  | f + 1, c :: rest =>
    if isPyWs c && (match rest with | r :: _ => isPyWs r | [] => false) then
      ' ' :: collapseWsF f (rest.dropWhile isPyWs)
    else if (c :: rest).take 6 = ("&nbsp;").toList then
      ' ' :: collapseWsF f ((c :: rest).drop 6)
    else if c = Char.ofNat 10 then ' ' :: collapseWsF f rest
    else c :: collapseWsF f rest

/-- The `re.sub(r"\s{2,}|&nbsp;|\n", " ", s)`: a maximal run of two or
more whitespace characters, else the literal `&nbsp;`, else a single
newline, each replaced by one space, alternatives tried in that order
at each position. -/
def collapseWs (l : List Char) : List Char := collapseWsF l.length l

/-- Decimal value of a digit list. -/
def decValue (ds : List Char) : Nat := ds.foldl (fun a c => 10 * a + digitVal c) 0

/-- Recognize one HTML entity reference directly after an ampersand,
returning the decoded character and how many characters to consume.
Models the Python standard-library `html.unescape` (external to this
repository) restricted to semicolon-terminated named references of the
feeds at hand plus decimal numeric references. -/
def decodeEntity (l : List Char) : Option (Char × Nat) :=
  if ("amp;").toList.isPrefixOf l then some ('&', 4)
  else if ("lt;").toList.isPrefixOf l then some ('<', 3)
  else if ("gt;").toList.isPrefixOf l then some ('>', 3)
  else if ("quot;").toList.isPrefixOf l then some ('"', 5)
  else if ("apos;").toList.isPrefixOf l then some (Char.ofNat 39, 5)
  else if ("nbsp;").toList.isPrefixOf l then some (Char.ofNat 160, 5)
  else
    match l with
    | '#' :: rest =>
      (match rest.takeWhile isDigitC, rest.drop (rest.takeWhile isDigitC).length with
       | d :: ds, ';' :: _ => some (Char.ofNat (decValue (d :: ds)), (d :: ds).length + 2)
       | _, _ => none)
    | _ => none

/-- Fuel-indexed worker for `unescape`. -/
def unescapeF : Nat → List Char → List Char
  | 0, _ => []
  | _ + 1, [] => []
  | f + 1, c :: rest =>
    if c = '&' then
      match decodeEntity rest with
      | some (ch, n) => ch :: unescapeF f (rest.drop n)
      | none => '&' :: unescapeF f rest
    else c :: unescapeF f rest

/-- The `html.unescape` over a whole string (see `decodeEntity`). -/
def unescape (l : List Char) : List Char := unescapeF l.length l

/-- The cleaning pipeline of `rss_reader_text.strip_text` before the
length cut: strip tags, strip outer whitespace, collapse whitespace
runs and `&nbsp;` and newlines, decode entities. -/
def cleaned_text (l : List Char) : List Char :=
  unescape (collapseWs (pyStrip (stripTags l)))

/-- The `rss_reader_text.strip_text`: clean, then keep the first 997
characters plus a three-character ellipsis whenever the cleaned text
is longer than 997 characters. -/
def strip_text (s : String) : String :=
  if 997 < (cleaned_text s.toList).length then
    ((cleaned_text s.toList).take 997 ++ ['.', '.', '.']).asString
  else (cleaned_text s.toList).asString

/-- Python `needle in hay` substring test. -/
def containsSub (hay needle : List Char) : Bool :=
  match hay with
  | [] => needle.isEmpty
  | h :: t => if needle.isPrefixOf (h :: t) then true else containsSub t needle

/-- Leftmost match of `re.findall(r"<img.+?>", text)`: the literal
`<img`, at least one non-newline character, then the first close
bracket. -/
def findImgTag : List Char → Option (List Char)
  | [] => none
  | c :: rest =>
    if ("<img").toList.isPrefixOf (c :: rest) then
      match scanTag ((c :: rest).drop 4) with
      | some k => some (("<img").toList ++ ((c :: rest).drop 4).take (k + 1))
      | none => findImgTag rest
    else findImgTag rest

/-- A quote character of the `src` regex character class. -/
def isQuoteC (c : Char) : Bool := c = '"' || c = Char.ofNat 39

/-- Non-greedy `(.*?)["']`: the (possibly empty) run of non-newline
characters before the first quote of either kind. -/
def scanQuote : List Char → Option (List Char)
  | [] => none
  | c :: tl =>
    if isQuoteC c then some []
    else if c = Char.ofNat 10 then none
    else
      match scanQuote tl with
      | some content => some (c :: content)
      | none => none

/-- Leftmost match of `re.findall(r"src=[quote](.*?)[quote]", tag)`. -/
def findSrcAttr : List Char → Option (List Char)
  | [] => none
  | c :: rest =>
    if ("src=").toList.isPrefixOf (c :: rest) then
      match (c :: rest).drop 4 with
      | q :: tl =>
        if isQuoteC q then
          match scanQuote tl with
          | some content => some content
          | none => findSrcAttr rest
        else findSrcAttr rest
      | [] => findSrcAttr rest
    else findSrcAttr rest

/-- The `rss_reader_text.get_image_link`: first `img` tag of the text,
then the first `src` attribute value inside it; `none` is the
`IndexError` path of either `findall(...)[0]`. -/
def get_image_link (s : String) : Option String :=
  match findImgTag s.toList with
  | some tag =>
    (match findSrcAttr tag with
     | some content => some content.asString
     | none => none)
  | none => none

/-- An XML element as `xml.etree.ElementTree` presents it: a tag, an
attribute map, optional text, and child elements in document order. -/
inductive Elem where
  | mk (tag : String) (attribs : List (String × String)) (text : Option String)
      (children : List Elem)

/-- Element tag. -/
def Elem.tag : Elem → String
  | .mk t _ _ _ => t

/-- Element attributes. -/
def Elem.attribs : Elem → List (String × String)
  | .mk _ a _ _ => a

/-- Element text. -/
def Elem.text : Elem → Option String
  | .mk _ _ tx _ => tx

/-- Element children. -/
def Elem.children : Elem → List Elem
  | .mk _ _ _ cs => cs

/-- The `Element.find(tag)`: the first direct child with the given tag. -/
def findChild (e : Elem) (t : String) : Option Elem :=
  e.children.find? (fun c => c.tag == t)

/-- The `Element.findall(tag)`: all direct children with the given tag. -/
def findAll (e : Elem) (t : String) : List Elem :=
  e.children.filter (fun c => c.tag == t)

/-- The `dict.get(key, default)` on the attribute map: first binding wins. -/
def attribGet (e : Elem) (k : String) : Option String :=
  (e.attribs.find? (fun p => p.1 == k)).map (fun p => p.2)

mutual

/-- The `Element.iter()`: the element and all its descendants in document
(preorder) order. -/
def iterElem : Elem → List Elem
  | .mk t a tx cs => .mk t a tx cs :: iterList cs

/-- Preorder traversal of a forest of elements. -/
def iterList : List Elem → List Elem
  | [] => []
  | e :: es => iterElem e ++ iterList es

end

/-- The `elem.tag[elem.tag.find(closing brace)+1:]`: drop a namespace
prefix written in braces; `str.find` returns -1 when absent, making the
slice the whole string. -/
def localName (t : String) : String :=
  match t.toList.findIdx? (fun c => c = Char.ofNat 125) with
  | some i => (t.toList.drop (i + 1)).asString
  | none => t

/-- The `rss_reader_text.get_absolute_url`: prefix a root-relative URL
with the channel link, its trailing slash removed; the
`AttributeError` paths (no link child, or a link child without text)
return the URL unchanged. -/
def get_absolute_url (url : String) (channel : Elem) : String :=
  match findChild channel "link" with
  | some e =>
    (match e.text with
     | some site =>
       (if site.endsWith "/" then (site.toList.dropLast).asString else site) ++ url
     | none => url)
  | none => url

/-- The enclosure filter of `process_rss`: type attribute containing
"image", or absent, or empty. -/
def encTypeMatches (e : Elem) : Bool :=
  containsSub ((attribGet e "type").getD "").toList ("image").toList ||
  (attribGet e "type").getD "" == ""

/-- The `for enclosure in enclosures` loop of `process_rss`: on a
matching type, take the url attribute and stop if it is present and
non-empty, otherwise remember it and continue; non-matching enclosures
leave the running value unchanged. -/
def enclosureScan : List Elem → Option String → Option String
  | [], img => img
  | e :: rest, img =>
    if encTypeMatches e then
      (match attribGet e "url" with
       | some u => if u == "" then enclosureScan rest (some u) else some u
       | none => enclosureScan rest none)
    else enclosureScan rest img

/-- Local-name membership in thumbnail/content/encoded. -/
def isThumbTag (e : Elem) : Bool :=
  localName e.tag == "thumbnail" || localName e.tag == "content" ||
  localName e.tag == "encoded"

/-- The `for elem in list(item.iter())` fallback loop of `process_rss`:
for each thumbnail/content/encoded descendant take its url attribute
and stop if non-empty; otherwise try an `img src` inside its text and
stop if one is found; on failure continue with the last assignment. -/
def thumbScan : List Elem → Option String → Option String
  | [], img => img
  | e :: rest, img =>
    if isThumbTag e then
      (match attribGet e "url" with
       | some u =>
         if u == "" then
           (match e.text with
            | some txt =>
              (match get_image_link txt with
               | some v => some v
               | none => thumbScan rest (some u))
            | none => thumbScan rest (some u))
         else some u
       | none =>
         (match e.text with
          | some txt =>
            (match get_image_link txt with
             | some v => some v
             | none => thumbScan rest none)
          | none => thumbScan rest none))
    else thumbScan rest img

/-- The `elem.find("image").find("url").text` on one element: `some t`
when both elements exist (with `t` their possibly missing text),
`none` for the `AttributeError` path. -/
def imageUrlText (e : Elem) : Option (Option String) :=
  match findChild e "image" with
  | some im =>
    (match findChild im "url" with
     | some u => some u.text
     | none => none)
  | none => none

/-- The fixed fallback image of `process_rss`. -/
def placeholderImage : String := "https://www.rssboard.org/images/rss-man-graphic.png"

/-- Rules 4-6 of the image fallback: channel image/url, then document
root image/url, then the placeholder.  The outer `none` is a found
url element whose text is missing, which in the source leaves `image`
as Python `None` and crashes at the final `startswith`. -/
def channelRootImage (channel root : Elem) : Option String :=
  match imageUrlText channel with
  | some t => t
  | none =>
    (match imageUrlText root with
     | some t => t
     | none => some placeholderImage)

/-- The final `if image.startswith("/")` resolution step. -/
def finalizeImage (channel : Elem) (v : String) : String :=
  if ("/").toList.isPrefixOf v.toList then get_absolute_url v channel else v

/-- The full image-resolution block of `process_rss` for one item:
enclosures when any exist (and nothing else in that case), otherwise
an `img src` in the raw description, otherwise the
thumbnail/content/encoded descendant scan; an empty or missing result
then falls back to channel/root/placeholder, and a leading slash is
resolved against the channel link.  `none` is the uncaught
`AttributeError` crash path. -/
def resolveImage (item channel root : Elem) (descRaw : String) : Option String :=
  let img1 : Option String :=
    match findAll item "enclosure" with
    | [] =>
      (match get_image_link descRaw with
       | some v => some v
       | none => thumbScan (iterElem item) none)
    | e :: rest => enclosureScan (e :: rest) none
  let img2 : Option String :=
    match img1 with
    | some v => if v == "" then channelRootImage channel root else some v
    | none => channelRootImage channel root
  match img2 with
  | some v => some (finalizeImage channel v)
  | none => none

/-- One normalized item, the value stored under a `News n` key. -/
structure NewsItem where
  title : String
  date : String
  image : String
  description : String
  link : String
deriving DecidableEq

/-- The dictionary built by `process_rss`: channel metadata plus the
normalized items in document order. -/
structure NewsDict where
  chTitle : String
  chDesc : String
  chUrl : String
  items : List NewsItem
deriving DecidableEq

/-- The repeated `x = item.find(tag); "" if x is None or x.text is None
else strip_text(x.text)` idiom. -/
def stripField (e : Elem) (t : String) : String :=
  match findChild e t with
  | none => ""
  | some c =>
    (match c.text with
     | none => ""
     | some s => strip_text s)

/-- Same idiom without the `strip_text`, used for the raw description. -/
def rawField (e : Elem) (t : String) : String :=
  match findChild e t with
  | none => ""
  | some c => (c.text).getD ""

/-- Normalization of one item inside the `process_rss` loop. -/
def processItem (item channel root : Elem) : Option NewsItem :=
  let title := stripField item "title"
  let date := stripField item "pubDate"
  let descRaw := rawField item "description"
  let link0 := stripField item "link"
  let link := if ("/").toList.isPrefixOf link0.toList then get_absolute_url link0 channel
    else link0
  match resolveImage item channel root descRaw with
  | some image => some ⟨title, date, image, strip_text descRaw, link⟩
  | none => none

/-- Result of `process_rss`: the two `return None` diagnostics, the
uncaught-exception path, or the produced dictionary. -/
inductive ProcResult where
  | noChannel
  | noItems
  | crash
  | ok (d : NewsDict)
deriving DecidableEq

/-- Sequence a list of optional values, stopping at the first `none`. -/
def allSome {α : Type} : List (Option α) → Option (List α)
  | [] => some []
  | none :: _ => none
  | some x :: rest =>
    (match allSome rest with
     | some xs => some (x :: xs)
     | none => none)

/-- The `rss_reader_xml.process_rss`: no channel child of the root aborts
with `noChannel`; a channel without a direct `item` child aborts with
`noItems` before the limit is consulted; otherwise the `item`
descendants are normalized in document order, stopping once `limit`
items are collected. -/
def process_rss (url : String) (root : Elem) (limit : Option Nat) : ProcResult :=
  match findChild root "channel" with
  | none => ProcResult.noChannel
  | some channel =>
    let chTitle := stripField channel "title"
    let chDesc := stripField channel "description"
    match findChild channel "item" with
    | none => ProcResult.noItems
    | some _ =>
      let itemsAll := (iterElem channel).filter (fun e => e.tag == "item")
      let taken := match limit with | some k => itemsAll.take k | none => itemsAll
      match allSome (taken.map (fun it => processItem it channel root)) with
      | some lst => ProcResult.ok ⟨chTitle, chDesc, url, lst⟩
      | none => ProcResult.crash

/-- One row of the `news` relation of `rss_reader_sql.py`:
`id INTEGER PRIMARY KEY AUTOINCREMENT, channel, url, title, date,
date_as_date, desc, image, link TEXT UNIQUE`. -/
structure Row where
  id : Nat
  channel : String
  url : String
  title : String
  date : String
  date_as_date : DateTime
  desc : String
  image : String
  link : String
deriving DecidableEq

/-- The `news` table plus the AUTOINCREMENT sequence (which SQLite
keeps monotone even across deletes). -/
structure Table where
  rows : List Row
  nextId : Nat
deriving DecidableEq

/-- The cache file state: absent (no backing file/table yet) or
present with a table. -/
inductive DB where
  | absent
  | present (t : Table)
deriving DecidableEq

/-- A fresh table: no rows, first AUTOINCREMENT id 1. -/
def emptyTable : Table := { rows := [], nextId := 1 }

/-- The `rss_reader_sql.create_sql_table`: `CREATE TABLE news (...)` with
no `IF NOT EXISTS` guard — it creates the table when absent and
returns True, while on an existing table the `sqlite3.OperationalError`
is caught, an error is logged, False is returned and the store is
untouched. -/
def create_sql_table : DB → Bool × DB
  | DB.absent => (true, DB.present emptyTable)
  | DB.present t => (false, DB.present t)

/-- The caller-side initialization of `app.run`: `create_sql_table` is
invoked only when the backing file does not exist yet. -/
def runEnsure : DB → DB
  | DB.absent => (create_sql_table DB.absent).2
  | DB.present t => DB.present t

/-- The `WHERE ... AND (title <> ? OR date <> ? OR desc <> ? OR
image <> ?)` comparison of the fallback UPDATE in `store_to_sql`. -/
def rowDiffers (i : NewsItem) (r : Row) : Bool :=
  !(r.title == i.title) || !(r.date == i.date) || !(r.desc == i.description) ||
  !(r.image == i.image)

/-- The SET clause of that UPDATE: the five mutable fields are
overwritten, `link` and `id` (and the channel columns) are kept. -/
def updateRow (i : NewsItem) (dd : DateTime) (r : Row) : Row :=
  { r with title := i.title, date := i.date, date_as_date := dd,
           desc := i.description, image := i.image }

/-- The conditional UPDATE applied to one stored row: rows whose
`link` matches and whose mutable fields differ are overwritten
(`date_as_date` recomputed by `parse_date`), all others kept. -/
def applyUpdate (i : NewsItem) (r : Row) : Row :=
  if r.link == i.link && rowDiffers i r then
    updateRow i (parse_date i.date i.title).1 r
  else r

/-- The row built by a successful INSERT, with the next AUTOINCREMENT
id and the channel metadata denormalized onto it. -/
def newRow (ch chUrl : String) (idv : Nat) (i : NewsItem) : Row :=
  { id := idv, channel := ch, url := chUrl, title := i.title, date := i.date,
    date_as_date := (parse_date i.date i.title).1, desc := i.description,
    image := i.image, link := i.link }

/-- One iteration of the `store_to_sql` loop: try INSERT; a `link`
uniqueness violation raises `sqlite3.IntegrityError`, answered by the
conditional UPDATE.  The second component is the number of rows this
statement changed (what `con.total_changes` accumulates). -/
def upsertRow (ch chUrl : String) (t : Table) (i : NewsItem) : Table × Nat :=
  if t.rows.any (fun r => r.link == i.link) then
    ({ t with rows := t.rows.map (applyUpdate i) },
     t.rows.countP (fun r => r.link == i.link && rowDiffers i r))
  else
    ({ rows := t.rows ++ [newRow ch chUrl t.nextId i], nextId := t.nextId + 1 }, 1)

/-- Accumulating step of the `store_to_sql` loop: thread the table and
add this statement's change count to the running total. -/
def upsertStep (ch chUrl : String) (acc : Table × Nat) (i : NewsItem) : Table × Nat :=
  ((upsertRow ch chUrl acc.1 i).1, acc.2 + (upsertRow ch chUrl acc.1 i).2)

/-- The `rss_reader_sql.store_to_sql` on a reachable table: upsert every
item in order; `changes` is `con.total_changes` at commit, and the
logged `existing` count is `len(news_dict) - 1 - changes`. -/
def store_to_sql (t : Table) (d : NewsDict) : Table × Nat × Int :=
  ((d.items.foldl (upsertStep d.chTitle d.chUrl) (t, 0)).1,
   (d.items.foldl (upsertStep d.chTitle d.chUrl) (t, 0)).2,
   (d.items.length : Int) - ((d.items.foldl (upsertStep d.chTitle d.chUrl) (t, 0)).2 : Int))

/-- State effect of `store_to_sql` on the cache: with no table the
`sqlite3.OperationalError` is caught and nothing is written. -/
def storeDB (db : DB) (d : NewsDict) : DB :=
  match db with
  | DB.absent => DB.absent
  | DB.present t => DB.present (store_to_sql t d).1

/-- State effect of `rss_reader_sql.clean_cache` after the user
confirms: `DELETE FROM news` plus `VACUUM` empties the rows and keeps
the AUTOINCREMENT sequence. -/
def clean_cache : DB → DB
  | DB.absent => DB.absent
  | DB.present t => DB.present { rows := [], nextId := t.nextId }

/-- One displayed record of `retrieve_from_sql`
(`row[3], row[1], row[2], row[4], row[7], row[6], row[8]`). -/
structure DispItem where
  title : String
  channel : String
  channelUrl : String
  date : String
  image : String
  description : String
  link : String
deriving DecidableEq

/-- Result of `retrieve_from_sql`: `fail logs` is the `return None`
path (zero rows, or an unreachable store) with its logged error;
`crash` is the uncaught `ValueError` of `reformat_date` on a malformed
date string; `ok` carries the rows and any logged warning. -/
inductive RetrieveResult where
  | crash
  | fail (logs : List String)
  | ok (rows : List DispItem) (logs : List String)
deriving DecidableEq

/-- Fuel-indexed SQLite `LIKE` matcher (case-insensitive ASCII,
`%` any sequence, `_` any one character); fuel at least
pattern length + string length + 1 makes the zero case unreachable. -/
def likeCharsF : Nat → List Char → List Char → Bool
  | 0, _, _ => false
  | f + 1, p, s =>
    match p, s with
    | [], [] => true
    | [], _ :: _ => false
    | '%' :: p2, s2 =>
      likeCharsF f p2 s2 ||
      (match s2 with | [] => false | _ :: t => likeCharsF f ('%' :: p2) t)
    | '_' :: p2, s2 => (match s2 with | [] => false | _ :: t => likeCharsF f p2 t)
    | c :: p2, s2 =>
      (match s2 with
       | [] => false
       | d :: t => (lowerC c = lowerC d) && likeCharsF f p2 t)

/-- The `url LIKE pattern`. -/
def sqlLike (pattern s : String) : Bool :=
  likeCharsF (pattern.length + s.length + 1) pattern.toList s.toList

/-- The `STRFTIME(yyyymmdd format, date_as_date)` on the stored timestamp. -/
def fmtYmd (d : DateTime) : String := pad4 d.year ++ pad2 d.month ++ pad2 d.day

/-- Injective numeric key whose order agrees with chronological order
of the stored ISO timestamp text. -/
def dateKey (d : DateTime) : Nat :=
  ((((d.year * 13 + d.month) * 32 + d.day) * 25 + d.hour) * 61 + d.minute) * 61 + d.second

/-- Insert a row into a list kept in descending `date_as_date` order. -/
def insertDesc (r : Row) : List Row → List Row
  | [] => [r]
  | x :: xs =>
    if dateKey x.date_as_date ≤ dateKey r.date_as_date then r :: x :: xs
    else x :: insertDesc r xs

/-- The `ORDER BY date_as_date DESC`. -/
def sortRowsDesc (rows : List Row) : List Row := rows.foldr insertDesc []

/-- Projection of a row onto the displayed dictionary fields. -/
def toDisp (r : Row) : DispItem :=
  { title := r.title, channel := r.channel, channelUrl := r.url, date := r.date,
    image := r.image, description := r.desc, link := r.link }

/-- The `rss_reader_text.get_ending`. -/
def get_ending (num : Nat) : String := if num = 1 then "item" else "items"

/-- The error logged by `retrieve_from_sql` when nothing matched. -/
def noInfoMsg (pretty : String) : String :=
  "No information found in cache for " ++ pretty

/-- The warning logged when fewer rows than the limit were found. -/
def limitWarnMsg (k n : Nat) : String :=
  "Limit set to " ++ Nat.repr k ++ " but only " ++ Nat.repr n ++ " news " ++
  get_ending n ++ " found in cache"

/-- The error logged when the store is unreachable (the
`sqlite3.OperationalError` handler; the source message also carries
the file path and the driver message). -/
def unableRetrieveMsg : String := "Unable to retrieve info from cache file"

/-- The `rss_reader_sql.retrieve_from_sql`: select the rows whose channel
url LIKE-matches the source (`%` when no source is given) and whose
`date_as_date` day equals `date`, descending, capped at `limit`; an
empty selection logs an error and returns None, never an empty
dictionary.  `matchedRows` is its WHERE clause: channel url LIKE the
source pattern (`%` when no source is given) and `date_as_date`
formatted as yyyymmdd equal to the date argument; `limitedRows` its
ORDER BY / LIMIT step. -/
def matchedRows (t : Table) (date : String) (source : Option String) : List Row :=
  t.rows.filter
    (fun r => sqlLike (source.getD "%") r.url && fmtYmd r.date_as_date == date)

/-- ORDER BY plus LIMIT over the matched rows. -/
def limitedRows (t : Table) (date : String) (source : Option String)
    (limit : Option Nat) : List Row :=
  match limit with
  | some k => (sortRowsDesc (matchedRows t date source)).take k
  | none => sortRowsDesc (matchedRows t date source)

/-- See `matchedRows`; the `SELECT` loop itself. -/
def retrieve_from_sql (db : DB) (date : String) (source : Option String)
    (limit : Option Nat) : RetrieveResult :=
  match db with
  | DB.absent => RetrieveResult.fail [unableRetrieveMsg]
  | DB.present t =>
    match (limitedRows t date source limit).map toDisp with
    | [] =>
      (match reformat_date date with
       | some pretty => RetrieveResult.fail [noInfoMsg pretty]
       | none => RetrieveResult.crash)
    | x :: xs =>
      RetrieveResult.ok (x :: xs)
        (match limit with
         | some k => if (x :: xs).length < k then [limitWarnMsg k (x :: xs).length] else []
         | none => [])

/-- The ingestion path of `app.run`: download, `process_rss`, and only
on a produced dictionary `store_to_sql`; the `noChannel`/`noItems`
`None` returns and the crash path leave the store untouched. -/
def ingestToStore (db : DB) (url : String) (root : Elem) (limit : Option Nat) : DB :=
  match process_rss url root limit with
  | ProcResult.ok d => storeDB db d
  | _ => db

/-- One transition of the cache-file state machine: schema creation,
an upsert batch, or a clean. -/
inductive Step : DB → DB → Prop where
  | ensure (s : DB) : Step s (create_sql_table s).2
  | upsert (s : DB) (d : NewsDict) : Step s (storeDB s d)
  | clean (s : DB) : Step s (clean_cache s)

/-- States reachable from the initial absent cache file. -/
inductive Reachable : DB → Prop where
  | init : Reachable DB.absent
  | step {s s2 : DB} : Reachable s → Step s s2 → Reachable s2

/-- The link-uniqueness invariant over a cache state. -/
def dbLinksNodup : DB → Prop
  | DB.absent => True
  | DB.present t => (t.rows.map Row.link).Nodup

/-- A non-image enclosure element (`type="audio/mpeg"`). -/
def encAudio : Elem :=
  Elem.mk "enclosure" [("type", "audio/mpeg"), ("url", "http://e/a.mp3")] none []

/-- A raw description carrying an inline image tag. -/
def descImgText : String := "<img src=\"http://d/i.png\">"

/-- An item with one non-image enclosure and an image in its raw
description. -/
def itemEnc : Elem :=
  Elem.mk "item" [] none
    [encAudio, Elem.mk "description" [] (some descImgText) []]

/-- The same item without any enclosure. -/
def itemNoEnc : Elem :=
  Elem.mk "item" [] none [Elem.mk "description" [] (some descImgText) []]

/-- A channel owning an image/url element and the enclosure item. -/
def chanWithImage : Elem :=
  Elem.mk "channel" [] none
    [Elem.mk "image" [] none [Elem.mk "url" [] (some "http://c/c.png") []], itemEnc]

/-- A document root around `chanWithImage`. -/
def rootC2 : Elem := Elem.mk "rss" [] none [chanWithImage]

/-- A channel with metadata but zero item elements. -/
def chanNoItems : Elem :=
  Elem.mk "channel" [] none
    [Elem.mk "title" [] (some "T") [], Elem.mk "description" [] (some "D") []]

/-- A document root around `chanNoItems`. -/
def rootNoItems : Elem := Elem.mk "rss" [] none [chanNoItems]

/-- A normalized item fixture. -/
def itemA : NewsItem :=
  { title := "T1", date := "Tue, 12 Oct 2021 17:06:02 +0300", image := "http://i",
    description := "D", link := "http://l" }

/-- The same fixture with a different title. -/
def itemA2 : NewsItem := { itemA with title := "T2" }

/-- A one-item dictionary around `itemA`. -/
def dictA : NewsDict := { chTitle := "Ch", chDesc := "CD", chUrl := "http://ch", items := [itemA] }

/-- A one-item dictionary around `itemA2`. -/
def dictA2 : NewsDict := { chTitle := "Ch", chDesc := "CD", chUrl := "http://ch", items := [itemA2] }

/-- Characterization of `firstSome`: either some position holds the
first `some` value, every earlier position holding `none`, or every
position holds `none`. -/
theorem firstSome_spec {α : Type} (l : List (Option α)) :
    (∃ k v, l.get? k = some (some v) ∧ (∀ j, j < k → l.get? j = some none) ∧
      firstSome l = some v)
    ∨ ((∀ k, k < l.length → l.get? k = some none) ∧ firstSome l = none) := by
  induction l with
  | nil =>
    right
    exact ⟨fun k hk => absurd hk (by simp), rfl⟩
  | cons hd tl ih =>
    cases hd with
    | some v =>
      left
      exact ⟨0, v, rfl, fun j hj => absurd hj (Nat.not_lt_zero j), rfl⟩
    | none =>
      rcases ih with ⟨k, v, h1, h2, h3⟩ | ⟨h1, h2⟩
      · left
        refine ⟨k + 1, v, by simpa using h1, ?_, by simpa [firstSome] using h3⟩
        intro j hj
        cases j with
        | zero => rfl
        | succ j2 => simpa using h2 j2 (by omega)
      · right
        constructor
        · intro k hk
          cases k with
          | zero => rfl
          | succ k2 => simpa using h1 k2 (by simpa using hk)
        · simpa [firstSome] using h2

/-- C10: `parse_date` is total over its error branches — for every
pair of input strings it returns a value: either some rule among the
five is the first to parse and its value is returned with no warning,
or all five rules fail and the sentinel is returned together with the
single warning naming the title. -/
theorem parse_date_total (date title : String) :
    (∃ k, k < 5 ∧ (dateRules date.toList).get? k = some (some (parse_date date title).1) ∧
      (∀ j, j < k → (dateRules date.toList).get? j = some none) ∧
      (parse_date date title).2 = [])
    ∨ ((∀ k, k < 5 → (dateRules date.toList).get? k = some none) ∧
      parse_date date title = (sentinelDate, [dateWarning title])) := by
  have hlen : (dateRules date.toList).length = 5 := rfl
  rcases firstSome_spec (dateRules date.toList) with ⟨k, v, h1, h2, h3⟩ | ⟨h1, h2⟩
  · left
    have hk : k < 5 := by
      by_contra hk
      have : (dateRules date.toList).get? k = none := by
        apply List.get?_eq_none.mpr
        omega
      rw [this] at h1
      exact Option.noConfusion h1
    have hpd : parse_date date title = (v, []) := by
      unfold parse_date
      rw [h3]
    exact ⟨k, hk, by rw [hpd]; exact h1, h2, by rw [hpd]⟩
  · right
    refine ⟨fun k hk => h1 k (by omega), ?_⟩
    unfold parse_date
    rw [h2]

/-- C7: a date string matching none of the five extraction rules
parses to the sentinel 1900-01-01T00:00:00 and records exactly one
warning naming the item title. -/
theorem parse_date_unparseable_sentinel (title : String) :
    parse_date "12.10.2021" title = (sentinelDate, [dateWarning title]) := by
  have h : firstSome (dateRules ("12.10.2021").toList) = none := by decide
  unfold parse_date
  rw [h]

/-- C8: the five extraction rules run in the fixed source order, first
success winning: the RFC-822 4-digit-year string parses under rule 1,
while the 2-digit-year string fails rule 1 and parses under rule 2;
both yield 2021-10-12T17:06:02 with no warning. -/
theorem parse_date_rfc822_variants (title : String) :
    parse_date "Tue, 12 Oct 2021 17:06:02 +0300" title = (⟨2021, 10, 12, 17, 6, 2⟩, []) ∧
    parse_date "Tue, 12 Oct 21 17:06:02 +0300" title = (⟨2021, 10, 12, 17, 6, 2⟩, []) ∧
    (dateRules ("Tue, 12 Oct 2021 17:06:02 +0300").toList).get? 0 =
      some (some ⟨2021, 10, 12, 17, 6, 2⟩) ∧
    (dateRules ("Tue, 12 Oct 21 17:06:02 +0300").toList).get? 0 = some none ∧
    (dateRules ("Tue, 12 Oct 21 17:06:02 +0300").toList).get? 1 =
      some (some ⟨2021, 10, 12, 17, 6, 2⟩) := by
  have h1 : firstSome (dateRules ("Tue, 12 Oct 2021 17:06:02 +0300").toList) =
      some ⟨2021, 10, 12, 17, 6, 2⟩ := by decide
  have h2 : firstSome (dateRules ("Tue, 12 Oct 21 17:06:02 +0300").toList) =
      some ⟨2021, 10, 12, 17, 6, 2⟩ := by decide
  refine ⟨?_, ?_, by decide, by decide, by decide⟩
  · unfold parse_date
    rw [h1]
  · unfold parse_date
    rw [h2]

/-- C6: `strip_text` never returns more than 1000 characters, and
whenever the cleaned text exceeds 997 characters the result is exactly
its first 997 characters followed by the 3-character ellipsis, total
exactly 1000. -/
theorem strip_text_truncation (s : String) :
    (strip_text s).length ≤ 1000 ∧
    (997 < (cleaned_text s.toList).length →
      strip_text s = ((cleaned_text s.toList).take 997 ++ ['.', '.', '.']).asString ∧
      (strip_text s).length = 1000) := by
  unfold strip_text
  by_cases h : 997 < (cleaned_text s.toList).length
  · rw [if_pos h]
    refine ⟨?_, fun _ => ⟨rfl, ?_⟩⟩
    · show ((cleaned_text s.toList).take 997 ++ ['.', '.', '.']).length ≤ 1000
      simp only [List.length_append, List.length_take, List.length_cons, List.length_nil]
      omega
    · show ((cleaned_text s.toList).take 997 ++ ['.', '.', '.']).length = 1000
      simp only [List.length_append, List.length_take, List.length_cons, List.length_nil]
      omega
  · rw [if_neg h]
    refine ⟨?_, fun hc => absurd hc h⟩
    show (cleaned_text s.toList).length ≤ 1000
    omega

set_option maxRecDepth 100000 in
/-- Witness for C6 at a 1500-character plain-text input. -/
theorem strip_text_truncation_witness :
    997 < (cleaned_text (String.mk (List.replicate 1500 'a')).toList).length ∧
    (strip_text (String.mk (List.replicate 1500 'a'))).length = 1000 :=
  ⟨by decide,
   ((strip_text_truncation (String.mk (List.replicate 1500 'a'))).2 (by decide)).2⟩

/-- The conditional UPDATE never touches the `link` column. -/
theorem applyUpdate_link (i : NewsItem) (r : Row) : (applyUpdate i r).link = r.link := by
  unfold applyUpdate updateRow
  split <;> rfl

/-- Updating rows leaves the list of links unchanged. -/
theorem map_link_applyUpdate (i : NewsItem) :
    ∀ rows : List Row, (rows.map (applyUpdate i)).map Row.link = rows.map Row.link := by
  intro rows
  induction rows with
  | nil => rfl
  | cons hd tl ih => simp [applyUpdate_link, ih]

/-- Pointwise-identity maps are the identity. -/
theorem map_id_of_eq {α : Type} (f : α → α) :
    ∀ l : List α, (∀ a ∈ l, f a = a) → l.map f = l := by
  intro l
  induction l with
  | nil => intro _; rfl
  | cons hd tl ih =>
    intro h
    rw [List.map_cons, h hd (by simp), ih (fun a ha => h a (by simp [ha]))]

/-- One upsert preserves distinctness of links: an UPDATE keeps the
link list, an INSERT appends a link that was not present. -/
theorem upsertRow_nodup (ch chUrl : String) (t : Table) (i : NewsItem)
    (h : (t.rows.map Row.link).Nodup) :
    ((upsertRow ch chUrl t i).1.rows.map Row.link).Nodup := by
  unfold upsertRow
  by_cases ha : (t.rows.any (fun r => r.link == i.link)) = true
  · rw [if_pos ha]
    show ((t.rows.map (applyUpdate i)).map Row.link).Nodup
    rw [map_link_applyUpdate]
    exact h
  · rw [if_neg ha]
    show ((t.rows ++ [newRow ch chUrl t.nextId i]).map Row.link).Nodup
    have ha2 : ∀ r ∈ t.rows, r.link ≠ i.link := by
      intro r hr heq
      exact ha (List.any_eq_true.mpr ⟨r, hr, by simp [heq]⟩)
    rw [List.map_append, List.nodup_append]
    refine ⟨h, List.nodup_singleton _, ?_⟩
    intro x hx hx2
    rcases List.mem_map.mp hx with ⟨r, hr, hxeq⟩
    have hx3 : x = i.link := by
      simp only [List.map_cons, List.map_nil, List.mem_singleton] at hx2
      exact hx2
    exact ha2 r hr (by rw [hxeq, hx3])

/-- The whole batch preserves distinctness of links. -/
theorem upsertFold_nodup (ch chUrl : String) (items : List NewsItem) :
    ∀ acc : Table × Nat, (acc.1.rows.map Row.link).Nodup →
      (((items.foldl (upsertStep ch chUrl) acc).1.rows.map Row.link)).Nodup := by
  induction items with
  | nil => intro acc h; exact h
  | cons i rest ih =>
    intro acc h
    exact ih (upsertStep ch chUrl acc i) (upsertRow_nodup ch chUrl acc.1 i h)

/-- The `store_to_sql` preserves distinctness of links. -/
theorem store_to_sql_nodup (t : Table) (d : NewsDict)
    (h : (t.rows.map Row.link).Nodup) :
    ((store_to_sql t d).1.rows.map Row.link).Nodup :=
  upsertFold_nodup d.chTitle d.chUrl d.items (t, 0) h

/-- Schema creation preserves the link invariant. -/
theorem create_preserves_nodup (s : DB) (h : dbLinksNodup s) :
    dbLinksNodup (create_sql_table s).2 := by
  cases s with
  | absent => exact List.nodup_nil
  | present t => exact h

/-- An upsert batch preserves the link invariant. -/
theorem store_preserves_nodup (s : DB) (d : NewsDict) (h : dbLinksNodup s) :
    dbLinksNodup (storeDB s d) := by
  cases s with
  | absent => trivial
  | present t => exact store_to_sql_nodup t d h

/-- Cleaning preserves the link invariant. -/
theorem clean_preserves_nodup (s : DB) (h : dbLinksNodup s) :
    dbLinksNodup (clean_cache s) := by
  cases s with
  | absent => trivial
  | present t => exact List.nodup_nil

/-- C4: in every cache state reachable through any sequence of
EnsureSchema, Upsert and Clean transitions from the initial absent
state, no two records share a `link` value. -/
theorem cache_links_unique (s : DB) (h : Reachable s) : dbLinksNodup s := by
  induction h with
  | init => trivial
  | step hr hst ih =>
    cases hst with
    | ensure => exact create_preserves_nodup _ ih
    | upsert d => exact store_preserves_nodup _ d ih
    | clean => exact clean_preserves_nodup _ ih

/-- Witness for C4: a concrete reachable state (schema creation
followed by one upsert batch) satisfies the invariant. -/
theorem cache_links_unique_witness :
    dbLinksNodup (storeDB (create_sql_table DB.absent).2 dictA) :=
  cache_links_unique _
    (Reachable.step (Reachable.step Reachable.init (Step.ensure DB.absent))
      (Step.upsert (create_sql_table DB.absent).2 dictA))

/-- With distinct links, the count of rows matching a given link and a
predicate is decided by the unique row carrying that link. -/
theorem countP_link_unique (l : String) (p : Row → Bool) :
    ∀ rows : List Row, (rows.map Row.link).Nodup →
      ∀ r0, r0 ∈ rows → r0.link = l →
      rows.countP (fun r => r.link == l && p r) = if p r0 then 1 else 0 := by
  intro rows
  induction rows with
  | nil =>
    intro _ r0 h0 _
    exact absurd h0 (List.not_mem_nil r0)
  | cons hd tl ih =>
    intro hnd r0 hr0 hl
    rw [List.map_cons, List.nodup_cons] at hnd
    rcases hnd with ⟨hnotin, hndtl⟩
    rw [List.countP_cons]
    rcases List.mem_cons.mp hr0 with rfl | hmem
    · have htl : tl.countP (fun r => r.link == l && p r) = 0 := by
        rw [List.countP_eq_zero]
        intro r hr
        have hne : r.link ≠ l := by
          intro he
          exact hnotin (List.mem_map.mpr ⟨r, hr, he.trans hl.symm⟩)
        simp [hne]
      rw [htl, hl]
      simp
    · have hne : hd.link ≠ l := by
        intro he
        exact hnotin (List.mem_map.mpr ⟨r0, hmem, hl.trans he.symm⟩)
      have hpred : (hd.link == l && p hd) = false := by simp [hne]
      rw [hpred, ih hndtl r0 hmem hl]
      simp

/-- A one-item ingestion dictionary. -/
def singleDict (ch cd u : String) (i : NewsItem) : NewsDict :=
  { chTitle := ch, chDesc := cd, chUrl := u, items := [i] }

/-- The `store_to_sql` on a one-item batch, fully reduced. -/
theorem store_single (t : Table) (ch cd u : String) (i : NewsItem) :
    store_to_sql t (singleDict ch cd u i) =
      ((upsertRow ch u t i).1, 0 + (upsertRow ch u t i).2,
       (1 : Int) - (((0 + (upsertRow ch u t i).2 : Nat)) : Int)) := rfl

/-- C3: upsert change-accounting.  (1) If the item's link is already
stored and every stored row with that link agrees on all mutable
fields, a second upsert is a no-op: the table is unchanged and the
call reports changed 0, unchanged 1.  (2) If links are distinct and
the stored row with this link has a different title, the upsert
reports changed 1, unchanged 0, and every stored row with that link
now carries the new title. -/
theorem store_upsert_change_accounting (t : Table) (ch cd u : String) (i : NewsItem) :
    ((∃ r, r ∈ t.rows ∧ r.link = i.link) →
      (∀ r, r ∈ t.rows → r.link = i.link → rowDiffers i r = false) →
      store_to_sql t (singleDict ch cd u i) = (t, 0, 1)) ∧
    ((t.rows.map Row.link).Nodup →
      ∀ r0, r0 ∈ t.rows → r0.link = i.link → r0.title ≠ i.title →
        (store_to_sql t (singleDict ch cd u i)).2 = (1, 0) ∧
        ∀ rr, rr ∈ (store_to_sql t (singleDict ch cd u i)).1.rows →
          rr.link = i.link → rr.title = i.title) := by
  constructor
  · intro hex hall
    obtain ⟨r1, hr1, hl1⟩ := hex
    have hany : (t.rows.any (fun r => r.link == i.link)) = true :=
      List.any_eq_true.mpr ⟨r1, hr1, by simp [hl1]⟩
    have hcnt : t.rows.countP (fun r => r.link == i.link && rowDiffers i r) = 0 := by
      rw [List.countP_eq_zero]
      intro r hr
      by_cases hlr : r.link = i.link
      · simp [hall r hr hlr]
      · simp [hlr]
    have hmap : t.rows.map (applyUpdate i) = t.rows := by
      apply map_id_of_eq
      intro r hr
      unfold applyUpdate
      by_cases hlr : r.link = i.link
      · simp [hall r hr hlr]
      · simp [hlr]
    have hup : upsertRow ch u t i = (t, 0) := by
      unfold upsertRow
      rw [if_pos hany, hcnt, hmap]
    rw [store_single, hup]
    rfl
  · intro hnd r0 hr0 hl0 hti
    have hany : (t.rows.any (fun r => r.link == i.link)) = true :=
      List.any_eq_true.mpr ⟨r0, hr0, by simp [hl0]⟩
    have hdif : rowDiffers i r0 = true := by
      unfold rowDiffers
      simp [hti]
    have hcnt1 : t.rows.countP (fun r => r.link == i.link && rowDiffers i r) = 1 := by
      rw [countP_link_unique i.link (rowDiffers i) t.rows hnd r0 hr0 hl0, hdif]
      rfl
    have hup2 : (upsertRow ch u t i).2 = 1 := by
      unfold upsertRow
      rw [if_pos hany]
      exact hcnt1
    constructor
    · rw [store_single, hup2]
      rfl
    · intro rr hrr hlrr
      have hrr2 : rr ∈ t.rows.map (applyUpdate i) := by
        rw [store_single] at hrr
        have h1 : ((upsertRow ch u t i).1, 0 + (upsertRow ch u t i).2,
            (1 : Int) - (((0 + (upsertRow ch u t i).2 : Nat)) : Int)).1 =
            (upsertRow ch u t i).1 := rfl
        rw [h1] at hrr
        unfold upsertRow at hrr
        rw [if_pos hany] at hrr
        exact hrr
      rcases List.mem_map.mp hrr2 with ⟨r, hr, hfr⟩
      by_cases hc : (r.link == i.link && rowDiffers i r) = true
      · have happ : applyUpdate i r = updateRow i (parse_date i.date i.title).1 r := by
          unfold applyUpdate
          rw [if_pos hc]
        rw [happ] at hfr
        rw [← hfr]
        rfl
      · have hid : applyUpdate i r = r := by
          unfold applyUpdate
          rw [if_neg hc]
        rw [hid] at hfr
        subst hfr
        have hbeq : (r.link == i.link) = true := by simp [hlrr]
        have hdf : rowDiffers i r = false := by
          cases hdd : rowDiffers i r
          · rfl
          · exact absurd (by simp [hbeq, hdd]) hc
        unfold rowDiffers at hdf
        simp at hdf
        exact hdf.1.1.1

/-- Witness for C3: the fixture item stored twice is a no-op with
counts (0, 1); storing the retitled fixture reports counts (1, 0). -/
theorem store_upsert_change_accounting_witness :
    store_to_sql (store_to_sql emptyTable dictA).1 dictA =
      ((store_to_sql emptyTable dictA).1, 0, 1) ∧
    (store_to_sql (store_to_sql emptyTable dictA).1 dictA2).2 = (1, 0) := by
  constructor
  · exact (store_upsert_change_accounting (store_to_sql emptyTable dictA).1
      "Ch" "CD" "http://ch" itemA).1
      ⟨newRow "Ch" "http://ch" 1 itemA, by decide, by decide⟩ (by decide)
  · exact ((store_upsert_change_accounting (store_to_sql emptyTable dictA).1
      "Ch" "CD" "http://ch" itemA2).2
      (by decide) (newRow "Ch" "http://ch" 1 itemA) (by decide) (by decide) (by decide)).1

/-- C9 counterexample: with the relation already present,
`create_sql_table` does not succeed — it returns False (after logging
an error) — although it does leave the store unchanged. -/
theorem create_existing_reports_failure :
    ¬ (create_sql_table (DB.present emptyTable)).1 = true ∧
    (create_sql_table (DB.present emptyTable)).2 = DB.present emptyTable := by
  exact ⟨by decide, rfl⟩

/-- C9 (amended): `create_sql_table` is idempotent on the store state
and creates the relation exactly when the backing file/table is
absent; when the relation already exists it leaves the store unchanged
but reports False rather than success, and the caller of `app.run`
skips the call entirely when the cache file exists. -/
theorem create_sql_table_idempotent :
    (∀ s : DB, (create_sql_table (create_sql_table s).2).2 = (create_sql_table s).2) ∧
    create_sql_table DB.absent = (true, DB.present emptyTable) ∧
    (∀ t : Table, create_sql_table (DB.present t) = (false, DB.present t)) ∧
    (∀ t : Table, runEnsure (DB.present t) = DB.present t) ∧
    runEnsure DB.absent = DB.present emptyTable := by
  refine ⟨fun s => ?_, rfl, fun t => rfl, fun t => rfl, rfl⟩
  cases s <;> rfl

/-- An empty WHERE match makes the limited selection empty. -/
theorem limitedRows_nil (t : Table) (date : String) (source : Option String)
    (lim : Option Nat) (hm : matchedRows t date source = []) :
    limitedRows t date source lim = [] := by
  cases lim with
  | none =>
    show sortRowsDesc (matchedRows t date source) = []
    rw [hm]
    rfl
  | some k =>
    show (sortRowsDesc (matchedRows t date source)).take k = []
    rw [hm]
    show (List.take k []) = []
    exact List.take_nil

/-- C1 counterexample: on a reachable, readable store with zero rows
matching the date, `retrieve_from_sql` does not return an empty
sequence as a normal result — it logs a no-information error and
returns None (modeled by `fail`). -/
theorem retrieve_zero_rows_counterexample :
    retrieve_from_sql (DB.present emptyTable) "20211012" none none =
      RetrieveResult.fail [noInfoMsg "October 12, 2021"] ∧
    retrieve_from_sql (DB.present emptyTable) "20211012" none none ≠
      RetrieveResult.ok [] [] := by
  exact ⟨by decide, by decide⟩

/-- C1 (amended): a query matching zero cached rows returns None after
logging a no-information error; an unreachable store also returns None
with a store error; and a successful result is never the empty
sequence, so emptiness never signals success. -/
theorem retrieve_empty_is_error (t : Table) (date : String) (source : Option String)
    (lim : Option Nat) :
    (matchedRows t date source = [] →
      ∀ pretty, reformat_date date = some pretty →
        retrieve_from_sql (DB.present t) date source lim =
          RetrieveResult.fail [noInfoMsg pretty]) ∧
    retrieve_from_sql DB.absent date source lim = RetrieveResult.fail [unableRetrieveMsg] ∧
    (∀ (db : DB) (rows : List DispItem) (logs : List String),
      retrieve_from_sql db date source lim = RetrieveResult.ok rows logs → rows ≠ []) := by
  refine ⟨?_, rfl, ?_⟩
  · intro hm pretty hp
    have hl : (limitedRows t date source lim).map toDisp = [] := by
      rw [limitedRows_nil t date source lim hm]
      rfl
    simp only [retrieve_from_sql, hl, hp]
  · intro db rows logs h
    cases db with
    | absent =>
      exact absurd h (by simp [retrieve_from_sql])
    | present t2 =>
      simp only [retrieve_from_sql] at h
      cases hd : (limitedRows t2 date source lim).map toDisp with
      | nil =>
        rw [hd] at h
        cases hp : reformat_date date with
        | some pretty =>
          rw [hp] at h
          simp at h
        | none =>
          rw [hp] at h
          simp at h
      | cons x xs =>
        rw [hd] at h
        simp only [RetrieveResult.ok.injEq] at h
        rw [← h.1]
        simp

/-- Witness for C1 (amended) at an empty store and a valid date. -/
theorem retrieve_empty_is_error_witness :
    matchedRows emptyTable "20211012" none = [] ∧
    retrieve_from_sql (DB.present emptyTable) "20211012" none (some 3) =
      RetrieveResult.fail [noInfoMsg "October 12, 2021"] :=
  ⟨by decide,
   (retrieve_empty_is_error emptyTable "20211012" none (some 3)).1 (by decide)
     "October 12, 2021" (by decide)⟩

/-- Every element occurs in its own traversal. -/
theorem self_mem_iterElem (e : Elem) : e ∈ iterElem e := by
  cases e
  exact List.mem_cons_self _ _

/-- Forest traversal contains every root. -/
theorem mem_iterList_of_mem {e : Elem} :
    ∀ es : List Elem, e ∈ es → e ∈ iterList es := by
  intro es
  induction es with
  | nil =>
    intro h
    exact absurd h (List.not_mem_nil e)
  | cons hd tl ih =>
    intro h
    rcases List.mem_cons.mp h with rfl | hm
    · show e ∈ iterElem e ++ iterList tl
      exact List.mem_append.mpr (Or.inl (self_mem_iterElem e))
    · show e ∈ iterElem hd ++ iterList tl
      exact List.mem_append.mpr (Or.inr (ih hm))

/-- If no descendant of the channel is an `item`, the direct-child
lookup finds none either. -/
theorem findChild_none_of_no_items (channel : Elem)
    (hempty : (iterElem channel).filter (fun e => e.tag == "item") = []) :
    findChild channel "item" = none := by
  apply List.find?_eq_none.mpr
  intro c hc
  have hmem : c ∈ iterElem channel := by
    cases channel with
    | mk tg a tx cs =>
      show c ∈ Elem.mk tg a tx cs :: iterList cs
      exact List.mem_cons.mpr (Or.inr (mem_iterList_of_mem cs hc))
  exact List.filter_eq_nil_iff.mp hempty c hmem

/-- C5: a feed whose channel contains zero item elements makes
`process_rss` fail with the NoItems diagnostic regardless of any
caller-supplied limit, and the ingestion path then writes nothing to
the store. -/
theorem no_items_aborts_before_limit (url : String) (root channel : Elem)
    (limit : Option Nat) (db : DB)
    (hch : findChild root "channel" = some channel)
    (hempty : (iterElem channel).filter (fun e => e.tag == "item") = []) :
    process_rss url root limit = ProcResult.noItems ∧
    ingestToStore db url root limit = db := by
  have hitem : findChild channel "item" = none := findChild_none_of_no_items channel hempty
  have hpr : process_rss url root limit = ProcResult.noItems := by
    simp only [process_rss, hch, hitem]
  exact ⟨hpr, by simp only [ingestToStore, hpr]⟩

/-- Witness for C5 at a concrete two-element channel without items. -/
theorem no_items_aborts_before_limit_witness :
    findChild rootNoItems "channel" = some chanNoItems ∧
    (iterElem chanNoItems).filter (fun e => e.tag == "item") = [] ∧
    process_rss "u" rootNoItems (some 1) = ProcResult.noItems ∧
    ingestToStore (DB.present emptyTable) "u" rootNoItems (some 1) = DB.present emptyTable := by
  refine ⟨rfl, rfl, ?_, ?_⟩
  · exact (no_items_aborts_before_limit "u" rootNoItems chanNoItems (some 1)
      (DB.present emptyTable) rfl rfl).1
  · exact (no_items_aborts_before_limit "u" rootNoItems chanNoItems (some 1)
      (DB.present emptyTable) rfl rfl).2

/-- Enclosures whose type does not match are skipped, the running
value untouched. -/
theorem enclosureScan_skip (pre : List Elem) :
    ∀ (rest : List Elem) (img : Option String),
      (∀ x ∈ pre, encTypeMatches x = false) →
      enclosureScan (pre ++ rest) img = enclosureScan rest img := by
  induction pre with
  | nil => intro rest img _; rfl
  | cons hd tl ih =>
    intro rest img h
    have hhd : encTypeMatches hd = false := h hd (by simp)
    show enclosureScan (hd :: (tl ++ rest)) img = _
    simp only [enclosureScan, hhd]
    simp only [Bool.false_eq_true, if_false]
    exact ih rest img (fun x hx => h x (by simp [hx]))

/-- If no enclosure matches, the scan returns its initial value. -/
theorem enclosureScan_all_none (es : List Elem) (img : Option String)
    (h : ∀ x ∈ es, encTypeMatches x = false) : enclosureScan es img = img := by
  have h2 := enclosureScan_skip es [] img h
  rw [List.append_nil] at h2
  rw [h2]
  rfl

/-- C2 (amended): the image-resolution order with its enclosure gate.
(1) The first type-matching enclosure with a non-empty url wins,
overriding every later rule.  (2) The raw-description `img src` rule
applies only when the item has no enclosure element at all.  (3) When
enclosures exist but none type-matches, resolution skips the
description and thumbnail rules entirely and falls directly to the
channel/root/placeholder fallback, whatever the description holds. -/
theorem image_resolution_enclosure_gate (item channel root : Elem) (d : String) :
    (∀ pre e post u, findAll item "enclosure" = pre ++ e :: post →
       (∀ x ∈ pre, encTypeMatches x = false) →
       encTypeMatches e = true → attribGet e "url" = some u → u ≠ "" →
       resolveImage item channel root d = some (finalizeImage channel u)) ∧
    (findAll item "enclosure" = [] →
       ∀ u, get_image_link d = some u → u ≠ "" →
       resolveImage item channel root d = some (finalizeImage channel u)) ∧
    (findAll item "enclosure" ≠ [] →
       (∀ x ∈ findAll item "enclosure", encTypeMatches x = false) →
       resolveImage item channel root d =
         (channelRootImage channel root).map (finalizeImage channel)) := by
  refine ⟨?_, ?_, ?_⟩
  · intro pre e post u hfa hpre he hurl hu
    have hscan : enclosureScan (findAll item "enclosure") none = some u := by
      rw [hfa, enclosureScan_skip pre (e :: post) none hpre]
      simp only [enclosureScan, he, if_true, hurl]
      simp [beq_eq_false_iff_ne.mpr hu]
    cases hfa2 : findAll item "enclosure" with
    | nil =>
      rw [hfa2] at hfa
      exact absurd hfa.symm (by cases pre <;> simp)
    | cons e2 rest2 =>
      rw [hfa2] at hscan
      simp only [resolveImage, hfa2, hscan]
      simp [beq_eq_false_iff_ne.mpr hu]
  · intro hfa u hg hu
    simp only [resolveImage, hfa, hg]
    simp [beq_eq_false_iff_ne.mpr hu]
  · intro hne hall
    have hscan : enclosureScan (findAll item "enclosure") none = none :=
      enclosureScan_all_none _ none hall
    cases hfa2 : findAll item "enclosure" with
    | nil => exact absurd hfa2 hne
    | cons e2 rest2 =>
      rw [hfa2] at hscan
      simp only [resolveImage, hfa2, hscan]
      cases hc : channelRootImage channel root <;> simp

/-- C2 counterexample: an item whose only enclosure has a non-image
type and whose raw description holds an `img src`: the description
image is *not* used — resolution falls through to the channel image —
so rule 2 does not apply when enclosures exist. -/
theorem image_rule2_overridden_counterexample :
    get_image_link descImgText = some "http://d/i.png" ∧
    findAll itemEnc "enclosure" = [encAudio] ∧
    encTypeMatches encAudio = false ∧
    resolveImage itemEnc chanWithImage rootC2 descImgText = some "http://c/c.png" ∧
    resolveImage itemEnc chanWithImage rootC2 descImgText ≠ some "http://d/i.png" := by
  exact ⟨by decide, rfl, by decide, by decide, by decide⟩

/-- Witness for C2 (amended): the non-image-enclosure item resolves
through the channel fallback, and the enclosure-free item resolves
through its raw description. -/
theorem image_resolution_enclosure_gate_witness :
    resolveImage itemEnc chanWithImage rootC2 descImgText =
      (channelRootImage chanWithImage rootC2).map (finalizeImage chanWithImage) ∧
    resolveImage itemNoEnc chanWithImage rootC2 descImgText =
      some (finalizeImage chanWithImage "http://d/i.png") := by
  constructor
  · refine (image_resolution_enclosure_gate itemEnc chanWithImage rootC2 descImgText).2.2
      (fun h => List.noConfusion ((rfl : findAll itemEnc "enclosure" = [encAudio]).symm.trans h))
      ?_
    intro x hx
    have hx2 : x ∈ [encAudio] := hx
    rcases List.mem_singleton.mp hx2 with rfl
    decide
  · exact (image_resolution_enclosure_gate itemNoEnc chanWithImage rootC2 descImgText).2.1 rfl
      "http://d/i.png" (by decide) (by decide)

/-!
Concrete evaluations mirroring the repository's own unit tests
(`tests/tests.py`), kept as compiled checks of the embedding.
-/

example : parse_date "Tue, 12 Oct 2021 17:06:02 +0300" "t" = (⟨2021, 10, 12, 17, 6, 2⟩, []) := by
  decide

example : parse_date "Tue, 12 Oct 21 17:06:02 +0300" "t" = (⟨2021, 10, 12, 17, 6, 2⟩, []) := by
  decide

example : parse_date "2021-10-12T17:06:02Z" "t" = (⟨2021, 10, 12, 17, 6, 2⟩, []) := by
  decide

example : parse_date "2021-10-12 17:06:02" "t" = (⟨2021, 10, 12, 17, 6, 2⟩, []) := by
  decide

example : parse_date "Tuesday, 12 Oct 2021 17:06:02 EST" "t" = (⟨2021, 10, 12, 17, 6, 2⟩, []) := by
  decide

example : (parse_date "12.10.2021" "t").1 = sentinelDate := by decide

example : reformat_date "20211014" = some "October 14, 2021" := by decide

example : strip_text "  <b>Hi</b>   there&amp;co " = "Hi there&co" := by decide

example : get_image_link "<p><img alt=x src=\"http://a/b.png\"></p>" = some "http://a/b.png" := by
  decide

example : get_image_link "no image here" = none := by decide

example : containsSub ("image/png").toList ("image").toList = true := by decide

example : resolveImage itemEnc chanWithImage rootC2 descImgText = some "http://c/c.png" := by
  decide

example : resolveImage itemNoEnc chanWithImage rootC2 descImgText = some "http://d/i.png" := by
  decide

example : process_rss "u" rootNoItems none = ProcResult.noItems := by decide

example : process_rss "u" (Elem.mk "rss" [] none []) none = ProcResult.noChannel := by decide

example :
    retrieve_from_sql (DB.present emptyTable) "20211012" none none =
      RetrieveResult.fail [noInfoMsg "October 12, 2021"] := by decide

example : (store_to_sql emptyTable dictA).2 = (1, 0) := by decide

example : store_to_sql (store_to_sql emptyTable dictA).1 dictA =
    ((store_to_sql emptyTable dictA).1, 0, 1) := by decide

example : (store_to_sql (store_to_sql emptyTable dictA).1 dictA2).2 = (1, 0) := by decide
